import Mathlib

/-!
# Verification of the BasicCaller issue-logging core

Shallow embedding of the realtime call-handling service in `src/API.py` and
`src/aux.py` (the websocket/media-stream variant of the repository; `src/main.py`
is the retired stepwise IVR variant and is not the code the claims cite).

Modelling conventions:
* Wall-clock instants (`time.time()`, `datetime.utcnow().timestamp()`) are
  modelled as `Int` seconds; each request is treated as instantaneous, so the
  several clock reads inside one handler all see the same `now`.
* Python `dict`s are modelled either as total functions with a default (for the
  `defaultdict` rate-limit store) or as association lists with unique keys.
* The external OpenAI chat completion is an oracle `llm : String → Option String`
  (`none` = the request raised, `some c` = the returned message content).
* `json.loads` is modelled by the executable parser `jsonLoads` below (objects,
  arrays, strings with the standard escapes, integers, booleans, null); Python
  floats are not representable and parse to `none`, which no theorem relies on.
* Byte strings of PCM16 audio are modelled as lists of 16-bit samples
  (2 bytes per sample, little-endian) and mu-law byte strings as lists of bytes.
-/

namespace BasicCaller

/-- JSON values as produced by `json.loads`.  Numbers are restricted to
integers (see the module comment).  Object fields keep their textual order;
`objGet` below implements the dict "last duplicate wins" rule. -/
inductive Json where
  | null : Json
  | bool (b : Bool) : Json
  | num (n : Int) : Json
  | str (s : String) : Json
  | arr (elems : List Json) : Json
  | obj (fields : List (String × Json)) : Json

/-- ASCII hexadecimal digit test. -/
def isHexChar (c : Char) : Bool :=
  c.isDigit || ('a' ≤ c && c ≤ 'f') || ('A' ≤ c && c ≤ 'F')

/-- Whitespace skipped by the JSON grammar. -/
def jsonSkipWs (cs : List Char) : List Char :=
  cs.dropWhile (fun c => c == ' ' || c == '\n' || c == '\t' || c == '\r')

/-- Parse the body of a JSON string literal (the opening quote already
consumed), handling the standard escapes. -/
def jsonString (acc : List Char) : List Char → Option (String × List Char)
  | [] => none
  | '"' :: rest => some (⟨acc.reverse⟩, rest)
  | '\\' :: e :: rest =>
    match e with
    | '"' => jsonString ('"' :: acc) rest
    | '\\' => jsonString ('\\' :: acc) rest
    | '/' => jsonString ('/' :: acc) rest
    | 'n' => jsonString ('\n' :: acc) rest
    | 't' => jsonString ('\t' :: acc) rest
    | 'r' => jsonString ('\r' :: acc) rest
    | 'b' => jsonString ('\x08' :: acc) rest
    | 'f' => jsonString ('\x0c' :: acc) rest
    | 'u' =>
      match rest with
      | h1 :: h2 :: h3 :: h4 :: rest' =>
        if isHexChar h1 && isHexChar h2 && isHexChar h3 && isHexChar h4 then
          let v := [h1, h2, h3, h4].foldl
            (fun n c => 16 * n +
              (if c.isDigit then c.toNat - '0'.toNat
               else if 'a' ≤ c then c.toNat - 'a'.toNat + 10
               else c.toNat - 'A'.toNat + 10)) 0
          jsonString (Char.ofNat v :: acc) rest'
        else none
      | _ => none
    | _ => none
  | c :: rest => jsonString (c :: acc) rest

/-- Parse a JSON integer (strict grammar: optional minus, `0` or a nonzero
leading digit; a following `.`, `e` or `E` means a float, unmodelled). -/
def jsonNumber (cs : List Char) : Option (Json × List Char) :=
  let (neg, cs1) := match cs with
    | '-' :: rest => (true, rest)
    | _ => (false, cs)
  let digits := cs1.takeWhile (·.isDigit)
  let rest := cs1.dropWhile (·.isDigit)
  if digits.isEmpty then none
  else if digits.length > 1 && digits.head? == some '0' then none
  else match rest with
    | '.' :: _ => none
    | 'e' :: _ => none
    | 'E' :: _ => none
    | _ =>
      let n : Int := digits.foldl (fun n c => 10 * n + (c.toNat - '0'.toNat : Int)) 0
      some (.num (if neg then -n else n), rest)

mutual

/-- JSON value parser (fuelled recursive descent). -/
def jsonValue : Nat → List Char → Option (Json × List Char)
  | 0, _ => none
  | fuel + 1, cs =>
    match jsonSkipWs cs with
    | 'n' :: 'u' :: 'l' :: 'l' :: rest => some (.null, rest)
    | 't' :: 'r' :: 'u' :: 'e' :: rest => some (.bool true, rest)
    | 'f' :: 'a' :: 'l' :: 's' :: 'e' :: rest => some (.bool false, rest)
    | '"' :: rest => (jsonString [] rest).map fun (s, r) => (.str s, r)
    | '\x7b' :: rest => jsonObject fuel (jsonSkipWs rest) []
    | '[' :: rest => jsonArray fuel (jsonSkipWs rest) []
    | cs' => jsonNumber cs'

/-- Object parser; `acc` holds the fields parsed so far (reversed). -/
def jsonObject : Nat → List Char → List (String × Json) → Option (Json × List Char)
  | 0, _, _ => none
  | _ + 1, '\x7d' :: rest, acc => some (.obj acc.reverse, rest)
  | fuel + 1, cs, acc =>
    match jsonSkipWs cs with
    | '"' :: rest =>
      match jsonString [] rest with
      | none => none
      | some (k, r1) =>
        match jsonSkipWs r1 with
        | ':' :: r2 =>
          match jsonValue fuel r2 with
          | none => none
          | some (v, r3) =>
            match jsonSkipWs r3 with
            | ',' :: r4 => jsonObject fuel r4 ((k, v) :: acc)
            | '\x7d' :: r4 => some (.obj ((k, v) :: acc).reverse, r4)
            | _ => none
        | _ => none
    | _ => none

/-- Array parser; `acc` holds the elements parsed so far (reversed). -/
def jsonArray : Nat → List Char → List Json → Option (Json × List Char)
  | 0, _, _ => none
  | _ + 1, ']' :: rest, acc => some (.arr acc.reverse, rest)
  | fuel + 1, cs, acc =>
    match jsonValue fuel cs with
    | none => none
    | some (v, r1) =>
      match jsonSkipWs r1 with
      | ',' :: r2 => jsonArray fuel r2 (v :: acc)
      | ']' :: r2 => some (.arr (v :: acc).reverse, r2)
      | _ => none

end

/-- Model of `json.loads`: parse a complete JSON document, requiring that only
whitespace follows the value (`json.loads` rejects trailing garbage).
Returns `none` where `json.loads` raises. -/
def jsonLoads (s : String) : Option Json :=
  match jsonValue (s.length + 1) s.data with
  | none => none
  | some (j, rest) => if (jsonSkipWs rest).isEmpty then some j else none

/-- Python `dict.get`-style lookup on a parsed object's fields: the last
occurrence of a duplicated key wins, as in the dict `json.loads` builds. -/
def objGet (fields : List (String × Json)) (k : String) : Option Json :=
  (fields.reverse.find? (·.1 == k)).map (·.2)

/-- `dict.get(k, default)`. -/
def objGetD (fields : List (String × Json)) (k : String) (d : Json) : Json :=
  (objGet fields k).getD d

/-! ## Data model -/

/-- One transcript message, as stored in `active_calls[call_sid]['transcript']`
(`src/API.py` lines 279-282, 293-296): a dict with keys `role`
(`"caller"` or `"bot"`) and `message`. -/
structure TranscriptEntry where
  role : String
  message : String
deriving DecidableEq

/-- The `CallData` record of `src/aux.py` lines 22-32.  The summary-derived
fields hold the JSON values taken from the summarizer's dict (pydantic type
validation/coercion of those values is an external concern, see module
comment).  `timestamp` is `datetime.utcnow()` as epoch seconds. -/
structure Issue where
  name : Json
  company : Json
  number : String
  system_info : Json
  title : Json
  description : Json
  priority : Json
  raw_transcription : List String
  visited : Bool
  timestamp : Int

/-- `MAX_REQUESTS_PER_HOUR = 5` (`src/aux.py` line 15). -/
def MAX_REQUESTS_PER_HOUR : Nat := 5

/-- `MAX_TRANSCRIPT_CHARS = 1500` (`src/aux.py` line 16). -/
def MAX_TRANSCRIPT_CHARS : Nat := 1500

/-- `BLOCKED_NUMBERS = set()` (`src/aux.py` line 18): the blocklist is empty. -/
def BLOCKED_NUMBERS : List String := []

/-- Per-call session value created by `media_stream_handler`
(`src/API.py` lines 87-92): `{'ws': websocket, 'transcript': [],
'stream_sid': None, 'connected': True}`.  The websocket handle itself is an
external resource and is not part of the modelled state. -/
structure Session where
  transcript : List TranscriptEntry
  stream_sid : Option String
  connected : Bool
deriving DecidableEq

/-- The process-wide mutable state of `src/API.py` lines 26-30 that the
admission path can read or write: the `defaultdict` rate-limit log (modelled
as a total map, empty window by default), the issue queue, and the session
registry `active_calls`. -/
structure SysState where
  rate_limit_log : String → List Int
  issues_store : List Issue
  active_calls : List (String × Session)

/-! ## Issue Queue: sweep and poll -/

/-- `clear_old_issues` (`src/aux.py` lines 60-62):
`issues_store[:] = [issue for issue in issues_store if
(issue.timestamp.timestamp() > cutoff and issue.visited)]` with
`cutoff = utcnow - 7*24*60*60`.  A record is *kept* iff it is younger than the
7-day retention and already visited. -/
def clear_old_issues (now : Int) (issues_store : List Issue) : List Issue :=
  issues_store.filter fun issue =>
    decide (issue.timestamp > now - 7 * 24 * 60 * 60) && issue.visited

/-- Mark a record visited (`issue.visited = True`). -/
def setVisited (issue : Issue) : Issue := { issue with visited := true }

/-- The `/poll/` endpoint body (`src/API.py` lines 397-405): it shallow-copies
the store, sets `visited = True` on every record, runs `clear_old_issues`, and
returns the copied list.  Because the copy is shallow, the returned records are
the same objects that were just marked, so the response carries
`visited = true`; the first component below is the returned list, the second
the store afterwards. -/
def poll (now : Int) (issues_store : List Issue) : List Issue × List Issue :=
  let issues_out := issues_store.map setVisited
  (issues_out, clear_old_issues now issues_out)

/-! ## Admission gate (`/voice`, `start_call`) -/

/-- `E164_REGEX = ^\+[1-9]\d{1,14}$` via `is_e164` (`src/aux.py` lines 53-55):
a `+`, a first digit `1`-`9`, then 1 to 14 further digits.  (`\d` is modelled
as the ASCII digits.) -/
def is_e164 (number : String) : Bool :=
  match number.data with
  | '+' :: c :: rest =>
    c.isDigit && c != '0' && rest.all (·.isDigit) &&
      decide (1 ≤ rest.length) && decide (rest.length ≤ 14)
  | _ => false

/-- The lazy pruning loop of `is_rate_limited` (`src/aux.py` lines 46-47):
`while timestamps and timestamps[0] < window_start: popleft()`. -/
def pruneWindow (now : Int) (w : List Int) : List Int :=
  w.dropWhile fun t => decide (t < now - 3600)

/-- Point update of the rate-limit store at one number. -/
def updateLog (log : String → List Int) (number : String) (w : List Int) :
    String → List Int :=
  fun n => if n = number then w else log n

/-- `is_rate_limited` (`src/aux.py` lines 40-48): prune timestamps older than
one hour from the caller's window (a mutation of the stored deque), then test
`len(timestamps) >= MAX_REQUESTS_PER_HOUR`.  Returns the verdict and the
mutated store. -/
def is_rate_limited (σ : SysState) (number : String) (now : Int) :
    Bool × SysState :=
  let w := pruneWindow now (σ.rate_limit_log number)
  (decide (MAX_REQUESTS_PER_HOUR ≤ w.length),
   { σ with rate_limit_log := updateLog σ.rate_limit_log number w })

/-- `is_blocked` (`src/aux.py` lines 57-58): membership in the (empty)
blocklist. -/
def is_blocked (number : String) : Bool := BLOCKED_NUMBERS.contains number

/-- `log_request` (`src/aux.py` lines 50-51): append `now` to the caller's
deque; the deque was built with `maxlen=MAX_REQUESTS_PER_HOUR`, so appending to
a full deque drops the oldest entry. -/
def log_request (σ : SysState) (number : String) (now : Int) : SysState :=
  let w1 := σ.rate_limit_log number ++ [now]
  let w2 := w1.drop (w1.length - MAX_REQUESTS_PER_HOUR)
  { σ with rate_limit_log := updateLog σ.rate_limit_log number w2 }

/-- The three admission predicates, in the order the source evaluates them. -/
inductive Check where
  | format
  | rateLimit
  | blocklist
deriving DecidableEq

/-- Admission outcome.  The HTTP responses for all three rejections are the
same bare hangup TwiML; the `Check` recorded inside `reject` is the predicate
that triggered the short-circuit (visible in the source, and in its log line),
not anything surfaced to the caller. -/
inductive Decision where
  | allow
  | reject (firstFailed : Check)
deriving DecidableEq

/-- The admission portion of `start_call` (`src/API.py` lines 50-68), i.e. the
`/voice` handler after form parsing.  Returns the decision, the list of checks
the admission condition evaluated in order (line 58 short-circuits
`not is_e164(From) or is_rate_limited(From) or is_blocked(From)`), and the
resulting global state.

Faithfulness notes:
* the missing-parameter guard (lines 51-56) and all TwiML construction are
  outside the modelled state and the claims;
* the rejected branch's log line (line 59) re-evaluates `is_rate_limited`, so
  its pruning effect on the window store is applied on every rejection; those
  re-evaluations are logging, not admission checks, so they are not recorded
  in the returned check list;
* on the allowed path the handler runs `log_request` and then
  `clear_old_issues(issues_store)` (lines 65-68). -/
def start_call (σ : SysState) (From : String) (now : Int) :
    Decision × List Check × SysState :=
  if ¬ is_e164 From then
    let σ1 := (is_rate_limited σ From now).2
    (.reject .format, [.format], σ1)
  else
    let (rl, σ1) := is_rate_limited σ From now
    if rl then
      let σ2 := (is_rate_limited σ1 From now).2
      (.reject .rateLimit, [.format, .rateLimit], σ2)
    else if is_blocked From then
      let σ2 := (is_rate_limited σ1 From now).2
      (.reject .blocklist, [.format, .rateLimit, .blocklist], σ2)
    else
      let σ2 := log_request σ1 From now
      (.allow, [.format, .rateLimit, .blocklist],
       { σ2 with issues_store := clear_old_issues now σ2.issues_store })

/-! ## Session registry -/

/-- Python dict assignment `d[k] = v` on an association list: overwrite in
place if the key exists, else append (dicts keep insertion order). -/
def dictSet (r : List (String × Session)) (k : String) (v : Session) :
    List (String × Session) :=
  if r.any (·.1 == k) then
    r.map fun p => if p.1 == k then (k, v) else p
  else
    r ++ [(k, v)]

/-- Dict lookup. -/
def dictGet (r : List (String × Session)) (k : String) : Option Session :=
  (r.find? (·.1 == k)).map (·.2)

/-- The fresh session value assigned by `media_stream_handler`. -/
def initialSession : Session :=
  { transcript := [], stream_sid := none, connected := true }

/-- Session creation in `media_stream_handler` (`src/API.py` line 87):
`active_calls[call_sid] = {'ws': …, 'transcript': [], 'stream_sid': None,
'connected': True}` — an unconditional dict assignment, with no existence
check. -/
def media_stream_register (r : List (String × Session)) (call_sid : String) :
    List (String × Session) :=
  dictSet r call_sid initialSession

/-! ## Audio transcoder (`audioop`)

`mulaw_to_pcm16` and `pcm16_to_mulaw` (`src/API.py` lines 166-200) are built
from CPython's `audioop.ulaw2lin`, `audioop.lin2ulaw` and `audioop.ratecv`
with width 2 and one channel, which are embedded below.  PCM byte strings are
modelled as lists of 16-bit samples and mu-law byte strings as lists of bytes
(one sample per byte). -/

/-- `st_ulaw2linear16` from CPython `Modules/audioop.c`: decode one mu-law
byte to a 16-bit linear sample.  (`BIAS = 0x84`; the byte is complemented,
the quantization bits are biased and shifted by the segment.) -/
def st_ulaw2linear16 (u : Nat) : Int :=
  let v := (u % 256) ^^^ 255
  let t : Nat := (((v &&& 15) <<< 3) + 132) <<< ((v &&& 112) >>> 4)
  if v &&& 128 ≠ 0 then (132 : Int) - t else (t : Int) - 132

/-- The segment search of `st_14linear2ulaw` over
`seg_uend = [0x3F, 0x7F, 0xFF, 0x1FF, 0x3FF, 0x7FF, 0xFFF, 0x1FFF]`:
the first index whose entry is `≥ v`, or 8. -/
def segSearch (v : Nat) : Nat :=
  if v ≤ 0x3F then 0
  else if v ≤ 0x7F then 1
  else if v ≤ 0xFF then 2
  else if v ≤ 0x1FF then 3
  else if v ≤ 0x3FF then 4
  else if v ≤ 0x7FF then 5
  else if v ≤ 0xFFF then 6
  else if v ≤ 0x1FFF then 7
  else 8

/-- `st_14linear2ulaw` from CPython `Modules/audioop.c`: encode a 14-bit
linear sample (the 16-bit sample arithmetically shifted right by 2) to one
mu-law byte.  `CLIP = 32635`, bias `BIAS >> 2 = 33`. -/
def st_14linear2ulaw (pcm_val : Int) : Nat :=
  let vm : Nat × Nat :=
    if pcm_val < 0 then ((-pcm_val).toNat, 0x7f) else (pcm_val.toNat, 0xff)
  let v := min vm.1 32635 + 33
  let seg := segSearch v
  if 8 ≤ seg then 0x7f ^^^ vm.2
  else (((seg <<< 4) ||| ((v >>> (seg + 1)) &&& 15)) ^^^ vm.2)

/-- Filter state of `audioop.ratecv`: the remainder `d` and the previous and
current input samples (held in the 32-bit `sample << 16` domain, as in the C
implementation's `samps` state tuple). -/
structure RatecvState where
  d : Int
  prev_i : Int
  cur_i : Int
deriving DecidableEq

/-- Core loop of `audioop.ratecv` (CPython `Modules/audioop.c`), mono, for
reduced rates `inr`/`outr`: repeatedly consume one input sample
(`prev_i ← cur_i; cur_i ← sample; d += outr`; the `weightA=1, weightB=0`
smoothing filter is the identity) and, while `d ≥ 0`, emit the interpolation
`(int)(((double)prev_i * d + (double)cur_i * (outr - d)) / outr)` and do
`d -= inr`.  For the magnitudes reachable here the double arithmetic is exact
up to the final truncation toward zero, i.e. `Int.tdiv`.  When the input is
exhausted with `d < 0` the state is returned for the next fragment. -/
def ratecvGo (inr outr : Int) :
    List Int → Int → Int → Int → List Int × RatecvState
  | [], prev, cur, d => ([], ⟨d, prev, cur⟩)
  | s :: rest, _, cur0, d0 =>
    let prev := cur0
    let cur := s
    let d1 := d0 + outr
    if 0 ≤ d1 then
      let k := (d1 / inr).toNat + 1
      let outs := (List.range k).map fun (j : Nat) =>
        Int.tdiv (prev * (d1 - inr * (j : Int)) +
          cur * (outr - (d1 - inr * (j : Int)))) outr
      let r := ratecvGo inr outr rest prev cur (d1 - inr * k)
      (outs ++ r.1, r.2)
    else
      ratecvGo inr outr rest prev cur d1

/-- `audioop.ratecv(fragment, 2, 1, inrate, outrate, state)` on a mono
fragment given as 16-bit samples: reduce the rates by their gcd, start from
`state` (or `d = -outrate`, zero samples, for `state=None`), scale samples by
`<< 16` on the way in (`GETSAMPLE32`) and arithmetically shift `>> 16` on the
way out (`SETSAMPLE32`). -/
def ratecv (samples : List Int) (inrate outrate : Nat)
    (state : Option RatecvState) : List Int × RatecvState :=
  let g := Nat.gcd inrate outrate
  let inr : Int := (inrate / g : Nat)
  let outr : Int := (outrate / g : Nat)
  let st := state.getD ⟨-outr, 0, 0⟩
  let r := ratecvGo inr outr (samples.map (· * 65536)) st.prev_i st.cur_i st.d
  (r.1.map fun v => Int.fdiv v 65536, r.2)

/-- `mulaw_to_pcm16` (`src/API.py` lines 166-182): `audioop.ulaw2lin(data, 2)`
then `audioop.ratecv(pcm, 2, 1, 8000, 24000, None)[0]`.  The filter state is
passed as `None` on every call and the returned state is discarded (`_`).
Neither step can raise on a byte-string input, so the `except` branch
returning `b''` is unreachable here. -/
def mulaw_to_pcm16 (mulaw_data : List Nat) : List Int :=
  (ratecv (mulaw_data.map st_ulaw2linear16) 8000 24000 none).1

/-- `pcm16_to_mulaw` (`src/API.py` lines 184-200):
`audioop.ratecv(pcm, 2, 1, 24000, 8000, None)[0]` then
`audioop.lin2ulaw(pcm_8k, 2)` (each sample encoded from its arithmetic
`>> 2`).  As above, state `None` per call, returned state discarded. -/
def pcm16_to_mulaw (pcm_data : List Int) : List Nat :=
  ((ratecv pcm_data 24000 8000 none).1).map fun s =>
    st_14linear2ulaw (Int.fdiv s 4)

/-- Modelled from the spec (§4.3): the state-continuous conversion the spec
requires, in which each frame of a call is resampled starting from the filter
state left by the previous frame of the same direction.  Used to compare the
code's per-frame behaviour against the required one. -/
def mulawToPcm16From (st : RatecvState) (mulaw_data : List Nat) :
    List Int × RatecvState :=
  ratecv (mulaw_data.map st_ulaw2linear16) 8000 24000 (some st)

/-- Modelled from the spec (§4.3): state-continuous model-to-carrier
conversion (resampling stage), as above. -/
def pcm16ToMulawFrom (st : RatecvState) (pcm_data : List Int) :
    List Nat × RatecvState :=
  let r := ratecv pcm_data 24000 8000 (some st)
  (r.1.map fun s => st_14linear2ulaw (Int.fdiv s 4), r.2)

/-! ## Model-pump event handling (`handle_openai_to_twilio_and_events`) -/

/-- The closed set of OpenAI-event shapes the model pump dispatches on
(`src/API.py` lines 245-313), keyed by the `type` discriminator. -/
inductive OAEvent where
  | audioDelta (payload : String)
  | audioDone
  | callerTranscriptCompleted (transcript : String)
  | textDelta (delta : String)
  | textDone
  | functionCallDone (name : String)
  | errorEvent
  | otherEvent (ty : String)
deriving DecidableEq

/-- The per-call state the pump mutates that the transcript claims concern:
whether `call_sid in active_calls` (true for the whole relay, since the
surrounding handler registered the session and removes it only after the pump
ends), the `current_response_text` accumulator, and the session transcript. -/
structure PumpState where
  inRegistry : Bool
  buffer : String
  transcript : List TranscriptEntry
deriving DecidableEq

/-- One iteration of the model-pump event dispatch
(`src/API.py` lines 245-313), restricted to its effect on `PumpState`:
* `response.text.delta`: `current_response_text += delta`;
* `response.text.done`: if the accumulator is nonempty and the call is
  registered, append `{role: "bot", message: accumulator}` and reset the
  accumulator to `""` (the reset is inside the guard);
* `conversation.item.input_audio_transcription.completed`: if the transcript
  text is nonempty and the call is registered, append
  `{role: "caller", message: text}` directly;
* audio deltas (forwarded to Twilio), `transfer_to_human` function calls
  (external REST side effect), error and unknown events do not touch this
  state. -/
def stepEvent (s : PumpState) (e : OAEvent) : PumpState :=
  match e with
  | .textDelta delta => { s with buffer := s.buffer ++ delta }
  | .textDone =>
    if s.buffer != "" && s.inRegistry then
      { s with transcript := s.transcript ++ [⟨"bot", s.buffer⟩], buffer := "" }
    else s
  | .callerTranscriptCompleted t =>
    if t != "" && s.inRegistry then
      { s with transcript := s.transcript ++ [⟨"caller", t⟩] }
    else s
  | _ => s

/-- Fold of the pump over a sequence of arriving events. -/
def processEvents (s : PumpState) (es : List OAEvent) : PumpState :=
  es.foldl stepEvent s

/-! ## Call finalization and summarization (`/end_call`, `generate_summary`) -/

/-- Python string slicing `s[:n]` by code points. -/
def pyTruncate (n : Nat) (s : String) : String := ⟨s.data.take n⟩

/-- The prompt f-string of `generate_summary` (`src/aux.py` lines 106-125)
with the truncated transcription interpolated. -/
def summaryPrompt (transcription_text : String) : String :=
  "You are logging customer support phone calls. The customer has called and explained an issue.\n" ++
  "    Caller transcription:\n" ++
  "    \"" ++ transcription_text ++ "\"\n" ++
  "\n" ++
  "    Please extract some information from the transcript. \n" ++
  "    name: full name as given\n" ++
  "    company: company name and location if given \n" ++
  "    system_info: any information about the specific system the caller works on (if mentioned). If not mentioned, answer \"Unknown\"\n" ++
  "    title: summary of up to 8 words\n" ++
  "    description: summary of 1-3 sentences\n" ++
  "    priority: level of importance to solve in time\n" ++
  "\n" ++
  "    Respond only with a JSON with the following format:\n" ++
  "        \"name\": \"...\",\n" ++
  "        \"company\": \"...\",\n" ++
  "        \"system_info\": \"...|Unknown\",\n" ++
  "        \"title\": \"...\",\n" ++
  "        \"description\": \"...\",\n" ++
  "        \"priority\": \"Critical|High|Medium|Low|None\"\n" ++
  "    "

/-- Python `str.strip()`: drop leading and trailing whitespace (executable
model of the strip in `summary_prompt`). -/
def pyStrip (s : String) : String :=
  ⟨((s.data.dropWhile Char.isWhitespace).reverse.dropWhile Char.isWhitespace).reverse⟩

/-- `summary_prompt` (`src/aux.py` lines 89-102): call the chat completion;
on any exception return the string `"fail"`, otherwise the content stripped.
The external completion is the oracle `llm` (`none` = request raised). -/
def summary_prompt (llm : String → Option String) (prompt : String) : String :=
  match llm prompt with
  | none => "fail"
  | some content => pyStrip content

/-- `re.search(r'\{.*\}', content, re.DOTALL)` followed by `.group()`: the
substring from the first `\x7b` to the last `\x7d`, when the first `\x7b`
occurs before the last `\x7d`; otherwise no match. -/
def braceBlock (s : String) : Option String :=
  match s.data.findIdx? (· == '\x7b'), s.data.reverse.findIdx? (· == '\x7d') with
  | some i, some jr =>
    let j := s.data.length - 1 - jr
    if i < j then some ⟨(s.data.drop i).take (j - i + 1)⟩ else none
  | _, _ => none

/-- The `default` fallback dict of `generate_summary`
(`src/aux.py` lines 126-133). -/
def summaryDefault : List (String × Json) :=
  [("name", .str "Unnamed"),
   ("company", .str "Unknown"),
   ("system_info", .str "Unknown"),
   ("title", .str "Uncategorised Call"),
   ("description", .str "Failed AI Summarisation"),
   ("priority", .str "Uncategorised")]

/-- `required_keys = {"name", "company", "system_info", "title",
"description", "priority"}` (`src/aux.py` line 141). -/
def requiredKeys : List String :=
  ["name", "company", "system_info", "title", "description", "priority"]

/-- `set(ai_result.keys()) != required_keys` negated: the field names of the
parsed dict are exactly the required set. -/
def keysMatchRequired (fields : List (String × Json)) : Bool :=
  let ks := fields.map (·.1)
  requiredKeys.all (fun k => ks.contains k) && ks.all (fun k => requiredKeys.contains k)

/-- `generate_summary` (`src/aux.py` lines 104-145): truncate the transcript
to `MAX_TRANSCRIPT_CHARS`, build the prompt, call `summary_prompt`, extract
the first-`\x7b`-to-last-`\x7d` block, `json.loads` it, and return the parsed
dict if it is a dict with exactly the required keys, the `default` dict
otherwise.  `json.loads` is *not* inside a `try`, so a brace block that fails
to parse raises out of the function: that is the `.error` result. -/
def generate_summary (llm : String → Option String)
    (transcription_text : String) : Except Unit (List (String × Json)) :=
  let text := pyTruncate MAX_TRANSCRIPT_CHARS transcription_text
  let prompt := summaryPrompt text
  let content := summary_prompt llm prompt
  match braceBlock content with
  | none => .ok summaryDefault
  | some g =>
    match jsonLoads g with
    | none => .error ()
    | some (.obj fields) =>
      if keysMatchRequired fields then .ok fields else .ok summaryDefault
    | some _ => .ok summaryDefault

/-- Flattening of the stored transcript for the summarizer
(`src/API.py` lines 375-376): `"\n".join(f"{msg['role']}: {msg['message']}")`. -/
def flattenTranscript (raw_transcript : List TranscriptEntry) : String :=
  String.intercalate "\n" (raw_transcript.map fun msg => msg.role ++ ": " ++ msg.message)

/-- Return statuses of the `/end_call` handler. -/
inductive EndCallStatus where
  | no_state
  | no_transcript
  | saved
deriving DecidableEq

/-- The `/end_call` handler `get_issue_type` (`src/API.py` lines 350-395):
look up the finalized transcript for the call, flatten it, summarize, build
the `CallData` record (`summary.get` with defaults for `name` / `company` /
`system_info`, direct indexing for `title` / `description` / `priority`,
which every `generate_summary` result provides), append it to the issue
queue.  An exception escaping `generate_summary` propagates (`.error`): no
record is appended.  `conversation_state` maps a call sid to the
`raw_transcript` saved by `finalize_call`. -/
def get_issue_type (llm : String → Option String) (CallSid From : String)
    (conversation_state : String → Option (List TranscriptEntry))
    (issues_store : List Issue) (now : Int) :
    Except Unit (EndCallStatus × List Issue) :=
  match conversation_state CallSid with
  | none => .ok (.no_state, issues_store)
  | some raw_transcript =>
    if raw_transcript.isEmpty then .ok (.no_transcript, issues_store)
    else
      match generate_summary llm (flattenTranscript raw_transcript) with
      | .error e => .error e
      | .ok summary =>
        match objGet summary "title", objGet summary "description",
              objGet summary "priority" with
        | some title, some description, some priority =>
          let issue_data : Issue :=
            { name := objGetD summary "name" (.str From),
              company := objGetD summary "company" (.str "no company information"),
              number := From,
              system_info := objGetD summary "system_info" (.str "no device information"),
              title := title,
              description := description,
              priority := priority,
              raw_transcription := raw_transcript.map (·.message),
              visited := false,
              timestamp := now }
          .ok (.saved, issues_store ++ [issue_data])
        | _, _, _ => .error ()

/-- The fallback record `/end_call` builds when `generate_summary` returns its
`default` dict (no summarizer output usable): all summary fields from
`summaryDefault`, caller number and verbatim transcript preserved. -/
def fallbackIssue (From : String) (raw_transcript : List TranscriptEntry)
    (now : Int) : Issue :=
  { name := .str "Unnamed",
    company := .str "Unknown",
    number := From,
    system_info := .str "Unknown",
    title := .str "Uncategorised Call",
    description := .str "Failed AI Summarisation",
    priority := .str "Uncategorised",
    raw_transcription := raw_transcript.map (·.message),
    visited := false,
    timestamp := now }

/-- A sample live session that has already accumulated conversation state. -/
def busySession : Session :=
  { transcript := [⟨"caller", "my vpn is down"⟩],
    stream_sid := some "MZ00001",
    connected := true }

/-- Shorthand for the prompt `generate_summary` builds for a transcription. -/
def promptFor (t : String) : String :=
  summaryPrompt (pyTruncate MAX_TRANSCRIPT_CHARS t)

/-- The finalized state used in the concrete scenarios: one call `"CA1"`
whose transcript is a single caller message. -/
def cstateC2 : String → Option (List TranscriptEntry) :=
  fun sid => if sid = "CA1" then some [⟨"caller", "billing issue"⟩] else none

/-- A sample issue record: unvisited, created at time 1000. -/
def sampleIssueUnvisited : Issue :=
  { name := .str "Ada Lovelace",
    company := .str "ACME",
    number := "+15551234567",
    system_info := .str "Unknown",
    title := .str "VPN outage",
    description := .str "Cannot reach the office VPN.",
    priority := .str "High",
    raw_transcription := ["billing issue"],
    visited := false,
    timestamp := 1000 }

/-! ## Theorems -/

/-- **C1** (code_bug evidence).  The sweep `clear_old_issues` keeps a record
only if it is *both* younger than the retention *and already visited*, so an
unvisited record is evicted even at age zero: with `now = 1000` and a record
whose `timestamp` is also `1000` (age `0`, far within the 7-day retention)
and `visited = false`, the sweep removes it.  The claim says a sweep removes
a record only if `visited = true` and its age exceeds the retention, and that
unvisited records are never evicted. -/
theorem clear_old_issues_evicts_fresh_unvisited :
    clear_old_issues 1000 [sampleIssueUnvisited] = [] ∧
    sampleIssueUnvisited.visited = false ∧
    1000 - 7 * 24 * 60 * 60 < sampleIssueUnvisited.timestamp := by
  refine ⟨rfl, rfl, by norm_num [sampleIssueUnvisited]⟩

/-- Marking all records visited twice is the same as marking them once. -/
lemma map_setVisited_idem (l : List Issue) :
    (l.map setVisited).map setVisited = l.map setVisited := by
  rw [List.map_map]
  rfl

/-- A sweep keeps every record that is visited and within retention. -/
lemma clear_old_issues_keeps_marked (m : Int) (store : List Issue)
    (h : ∀ i ∈ store, m - 7 * 24 * 60 * 60 < i.timestamp) :
    clear_old_issues m (store.map setVisited) = store.map setVisited := by
  unfold clear_old_issues
  rw [List.filter_eq_self]
  intro a ha
  rcases List.mem_map.mp ha with ⟨j, hj, rfl⟩
  have := h j hj
  simp [setVisited]
  omega

/-- **C9**.  `poll` returns all records currently in the store with every
returned record's `visited` flag set (the list copy is shallow, so the
returned records are the marked objects); as long as every record is within
retention at both poll times, a repeated poll returns the same records and
leaves the store unchanged, and the `visited` flag, once set by the first
poll, stays set. -/
theorem poll_snapshot_marks_and_is_idempotent (now now' : Int)
    (store : List Issue)
    (hfresh : ∀ i ∈ store, now - 7 * 24 * 60 * 60 < i.timestamp)
    (hfresh' : ∀ i ∈ store, now' - 7 * 24 * 60 * 60 < i.timestamp) :
    (poll now store).1 = store.map setVisited ∧
    (∀ i ∈ (poll now store).1, i.visited = true) ∧
    (poll now' (poll now store).2).1 = (poll now store).1 ∧
    (poll now' (poll now store).2).2 = (poll now store).2 := by
  have hsnd : (poll now store).2 = store.map setVisited :=
    clear_old_issues_keeps_marked now store hfresh
  refine ⟨rfl, ?_, ?_, ?_⟩
  · intro i hi
    rcases List.mem_map.mp hi with ⟨j, _, rfl⟩
    rfl
  · show (poll now' (poll now store).2).1 = _
    rw [hsnd]
    show (store.map setVisited).map setVisited = store.map setVisited
    exact map_setVisited_idem store
  · show (poll now' (poll now store).2).2 = _
    rw [hsnd]
    show clear_old_issues now' ((store.map setVisited).map setVisited) = _
    rw [map_setVisited_idem store]
    exact clear_old_issues_keeps_marked now' store hfresh'

/-- Witness for C9 at a concrete store and times. -/
theorem poll_snapshot_marks_and_is_idempotent_witness :
    (∀ i ∈ [sampleIssueUnvisited], (2000 : Int) - 7 * 24 * 60 * 60 < i.timestamp) ∧
    (poll 2000 [sampleIssueUnvisited]).1 = [sampleIssueUnvisited].map setVisited ∧
    (poll 3000 (poll 2000 [sampleIssueUnvisited]).2).1 =
      (poll 2000 [sampleIssueUnvisited]).1 := by
  have h1 : ∀ i ∈ [sampleIssueUnvisited], (2000 : Int) - 7 * 24 * 60 * 60 < i.timestamp := by
    intro i hi
    rcases List.mem_singleton.mp hi with rfl
    norm_num [sampleIssueUnvisited]
  have h2 : ∀ i ∈ [sampleIssueUnvisited], (3000 : Int) - 7 * 24 * 60 * 60 < i.timestamp := by
    intro i hi
    rcases List.mem_singleton.mp hi with rfl
    norm_num [sampleIssueUnvisited]
  have h := poll_snapshot_marks_and_is_idempotent 2000 3000 [sampleIssueUnvisited] h1 h2
  exact ⟨h1, h.1, h.2.2.1⟩

/-- Writing back the value already stored is a no-op on the log. -/
lemma updateLog_self (log : String → List Int) (number : String) :
    updateLog log number (log number) = log := by
  funext n
  unfold updateLog
  by_cases h : n = number
  · subst h; simp
  · simp [h]

/-- Reading the updated entry. -/
lemma updateLog_eq (log : String → List Int) (number : String) (w : List Int) :
    updateLog log number w number = w := by
  simp [updateLog]

/-- Reading an unrelated entry. -/
lemma updateLog_ne (log : String → List Int) (number n : String) (w : List Int)
    (h : n ≠ number) : updateLog log number w n = log n := by
  simp [updateLog, h]

/-- Pruning a window in which no timestamp is stale changes nothing. -/
lemma pruneWindow_of_fresh (now : Int) (w : List Int)
    (h : ∀ t ∈ w, now - 3600 ≤ t) : pruneWindow now w = w := by
  cases w with
  | nil => rfl
  | cons a l =>
    have ha : ¬ (a < now - 3600) := not_lt.mpr (h a (List.mem_cons_self a l))
    simp [pruneWindow, List.dropWhile, ha]

/-- If pruning leaves at least as many entries as the window can hold
(`maxlen = 5`), it removed nothing. -/
lemma pruneWindow_of_full (now : Int) (w : List Int)
    (hlen : w.length ≤ MAX_REQUESTS_PER_HOUR)
    (hge : MAX_REQUESTS_PER_HOUR ≤ (pruneWindow now w).length) :
    pruneWindow now w = w := by
  have hsplit := List.takeWhile_append_dropWhile
    (p := fun t => decide (t < now - 3600)) (l := w)
  have hlen2 := congrArg List.length hsplit
  rw [List.length_append] at hlen2
  have htake : (w.takeWhile fun t => decide (t < now - 3600)).length = 0 := by
    have : (pruneWindow now w).length = (w.dropWhile fun t => decide (t < now - 3600)).length := rfl
    omega
  have hnil : (w.takeWhile fun t => decide (t < now - 3600)) = [] :=
    List.eq_nil_of_length_eq_zero htake
  rw [hnil] at hsplit
  simpa [pruneWindow] using hsplit

/-- When pruning is a no-op at a number, the `is_rate_limited` call leaves the
whole state unchanged. -/
lemma is_rate_limited_state_id (σ : SysState) (number : String) (now : Int)
    (h : pruneWindow now (σ.rate_limit_log number) = σ.rate_limit_log number) :
    (is_rate_limited σ number now).2 = σ := by
  cases σ with
  | mk log issues calls =>
    show ({ rate_limit_log := updateLog log number (pruneWindow now (log number)),
            issues_store := issues, active_calls := calls } : SysState) = _
    rw [h, updateLog_self]

/-- The two invariants of the rate-limit store that the running service
maintains: a window never exceeds the deque bound `maxlen = 5`, and only
numbers that pass `is_e164` ever receive a timestamp (`log_request` is only
reached behind the validation, so a number failing validation has an empty
window). -/
def WindowInv (σ : SysState) : Prop :=
  (∀ n, (σ.rate_limit_log n).length ≤ MAX_REQUESTS_PER_HOUR) ∧
  (∀ n, is_e164 n = false → σ.rate_limit_log n = [])

/-- **C3 counterexample.**  The claim says the checks run in the canonical
order: format validation, then blocklist, then rate limit.  On the concrete
state with empty windows and the well-formed caller `+15551234567`, the
admission condition of `start_call` evaluates `[format, rateLimit, blocklist]`
— the rate-limit check (with its window-pruning side effect) runs *before*
the blocklist check, so the performed checks are not a subsequence of the
canonical order. -/
theorem start_call_check_order_not_canonical :
    ¬ ((start_call ⟨fun _ => [], [], []⟩ "+15551234567" 0).2.1.Sublist
        [Check.format, Check.blocklist, Check.rateLimit]) := by
  intro h
  have htr : (start_call ⟨fun _ => [], [], []⟩ "+15551234567" 0).2.1 =
      [Check.format, Check.rateLimit, Check.blocklist] := by rfl
  rw [htr] at h
  exact absurd h (by decide)

/-- **C3** (amended).  `start_call` evaluates its checks in the order
format, rate limit, blocklist (short-circuiting, so the performed checks are
always a prefix of that order), every rejection returns the same bare hangup
(the recorded `Check` is just the triggering predicate); under the invariants
of `WindowInv`, a rejected attempt leaves the rate-limit store, the issue
queue and the session registry exactly as they were, and on the allowed path
the caller's window gains exactly the timestamp `now` (after lazy pruning),
no other caller's window changes, and no session is created. -/
theorem start_call_reject_no_side_effect (σ : SysState) (From : String)
    (now : Int) (hinv : WindowInv σ) :
    ((start_call σ From now).2.1 = [.format] ∨
     (start_call σ From now).2.1 = [.format, .rateLimit] ∨
     (start_call σ From now).2.1 = [.format, .rateLimit, .blocklist]) ∧
    (∀ c, (start_call σ From now).1 = .reject c →
      (start_call σ From now).2.2.rate_limit_log = σ.rate_limit_log ∧
      (start_call σ From now).2.2.issues_store = σ.issues_store ∧
      (start_call σ From now).2.2.active_calls = σ.active_calls) ∧
    ((start_call σ From now).1 = .allow →
      (start_call σ From now).2.2.rate_limit_log From =
        pruneWindow now (σ.rate_limit_log From) ++ [now] ∧
      (∀ n, n ≠ From → (start_call σ From now).2.2.rate_limit_log n =
        σ.rate_limit_log n) ∧
      (start_call σ From now).2.2.active_calls = σ.active_calls) := by
  obtain ⟨hlen, hempty⟩ := hinv
  by_cases he : is_e164 From
  · by_cases hrl : MAX_REQUESTS_PER_HOUR ≤ (pruneWindow now (σ.rate_limit_log From)).length
    · -- rejected by the rate limit: pruning removed nothing, state unchanged
      have hfix : pruneWindow now (σ.rate_limit_log From) = σ.rate_limit_log From :=
        pruneWindow_of_full now _ (hlen From) hrl
      have hid : (is_rate_limited σ From now).2 = σ :=
        is_rate_limited_state_id σ From now hfix
      have hbool : (is_rate_limited σ From now).1 = true := by
        simp [is_rate_limited, hrl]
      have hsc : start_call σ From now =
          (.reject .rateLimit, [.format, .rateLimit],
            (is_rate_limited (is_rate_limited σ From now).2 From now).2) := by
        unfold start_call
        rw [if_neg (by simp [he])]
        have : (is_rate_limited σ From now) =
            ((is_rate_limited σ From now).1, (is_rate_limited σ From now).2) := rfl
        rw [this, hbool]
        simp
      rw [hsc, hid, hid]
      refine ⟨Or.inr (Or.inl rfl), fun c _ => ⟨rfl, rfl, rfl⟩, fun hco => absurd hco (by simp)⟩
    · -- allowed: only the caller's window changes, by appending `now`
      have hbool : (is_rate_limited σ From now).1 = false := by
        simp [is_rate_limited]
        omega
      have hbl : is_blocked From = false := rfl
      have hsc : start_call σ From now =
          (.allow, [.format, .rateLimit, .blocklist],
            { log_request (is_rate_limited σ From now).2 From now with
              issues_store := clear_old_issues now
                (log_request (is_rate_limited σ From now).2 From now).issues_store }) := by
        unfold start_call
        rw [if_neg (by simp [he])]
        have : (is_rate_limited σ From now) =
            ((is_rate_limited σ From now).1, (is_rate_limited σ From now).2) := rfl
        rw [this, hbool]
        simp [hbl]
      rw [hsc]
      refine ⟨Or.inr (Or.inr rfl), ?_, fun _ => ⟨?_, ?_, ?_⟩⟩
      · intro c hc
        exact absurd hc (by simp)
      · show (log_request (is_rate_limited σ From now).2 From now).rate_limit_log From = _
        have h1 : (is_rate_limited σ From now).2.rate_limit_log From =
            pruneWindow now (σ.rate_limit_log From) := by
          simp [is_rate_limited, updateLog_eq]
        simp only [log_request, updateLog_eq]
        rw [h1]
        have hz : (pruneWindow now (σ.rate_limit_log From) ++ [now]).length -
            MAX_REQUESTS_PER_HOUR = 0 := by
          rw [List.length_append]
          simp only [MAX_REQUESTS_PER_HOUR, not_le] at hrl ⊢
          simp
          omega
        rw [hz, List.drop_zero]
      · intro n hn
        show (log_request (is_rate_limited σ From now).2 From now).rate_limit_log n = _
        simp only [log_request]
        rw [updateLog_ne _ _ _ _ hn]
        show (is_rate_limited σ From now).2.rate_limit_log n = _
        simp [is_rate_limited, updateLog_ne _ _ _ _ hn]
      · rfl
  · -- rejected by format validation: the log line prunes an empty window
    have hff : is_e164 From = false := by simpa using he
    have hlog : σ.rate_limit_log From = [] := hempty From hff
    have hfix : pruneWindow now (σ.rate_limit_log From) = σ.rate_limit_log From := by
      rw [hlog]; rfl
    have hid : (is_rate_limited σ From now).2 = σ :=
      is_rate_limited_state_id σ From now hfix
    have hsc : start_call σ From now =
        (.reject .format, [.format], (is_rate_limited σ From now).2) := by
      unfold start_call
      rw [if_pos (by simp [he])]
    rw [hsc, hid]
    exact ⟨Or.inl rfl, fun c _ => ⟨rfl, rfl, rfl⟩, fun hco => absurd hco (by simp)⟩

/-- Witness for C3 (amended): a blank state satisfies the invariants; an
invalid-format caller is rejected and the state is untouched. -/
theorem start_call_reject_no_side_effect_witness :
    WindowInv ⟨fun _ => [], [], []⟩ ∧
    (start_call ⟨fun _ => [], [], []⟩ "not-a-number" 0).2.2.rate_limit_log =
      (fun _ => []) := by
  have hinv : WindowInv ⟨fun _ => [], [], []⟩ :=
    ⟨fun _ => by simp [MAX_REQUESTS_PER_HOUR], fun _ _ => rfl⟩
  refine ⟨hinv, ?_⟩
  have h := (start_call_reject_no_side_effect ⟨fun _ => [], [], []⟩ "not-a-number" 0 hinv).2.1
  exact (h Check.format rfl).1

/-- Pruning a window whose head is stale and whose tail is fresh removes
exactly the head. -/
lemma pruneWindow_cons_stale (now t0 : Int) (rest : List Int)
    (h0 : t0 < now - 3600) (hrest : ∀ t ∈ rest, now - 3600 ≤ t) :
    pruneWindow now (t0 :: rest) = rest := by
  show List.dropWhile _ (t0 :: rest) = rest
  rw [List.dropWhile_cons_of_pos (by simpa using h0)]
  exact pruneWindow_of_fresh now rest hrest

/-- **C6**.  With the configured maximum `MAX_REQUESTS_PER_HOUR = 5`: a
caller whose window holds exactly 5 admitted timestamps, all inside the
trailing hour at the time of the next attempt, has that attempt rejected by
the rate-limit check, and the window is left as it was (nothing is pruned,
nothing is recorded).  Later, at a check time `now'` at which the oldest of
those timestamps has aged out of the trailing hour while the other four have
not, the next attempt is allowed: the stale timestamp is pruned lazily and
the attempt's own timestamp is appended. -/
theorem rate_limit_rejects_then_readmits (σ : SysState) (From : String)
    (now now' t0 : Int) (rest : List Int)
    (he : is_e164 From = true)
    (hw : σ.rate_limit_log From = t0 :: rest)
    (hlen : (t0 :: rest).length = MAX_REQUESTS_PER_HOUR) :
    ((∀ t ∈ t0 :: rest, now - 3600 ≤ t) →
      (start_call σ From now).1 = .reject .rateLimit ∧
      (start_call σ From now).2.2.rate_limit_log From = t0 :: rest) ∧
    (t0 < now' - 3600 → (∀ t ∈ rest, now' - 3600 ≤ t) →
      (start_call σ From now').1 = .allow ∧
      (start_call σ From now').2.2.rate_limit_log From = rest ++ [now']) := by
  constructor
  · intro hfresh
    have hfix : pruneWindow now (σ.rate_limit_log From) = σ.rate_limit_log From := by
      rw [hw]; exact pruneWindow_of_fresh now _ hfresh
    have hid : (is_rate_limited σ From now).2 = σ :=
      is_rate_limited_state_id σ From now hfix
    have hfix2 : pruneWindow now (t0 :: rest) = t0 :: rest :=
      pruneWindow_of_fresh now _ hfresh
    have hbool : (is_rate_limited σ From now).1 = true := by
      simp [is_rate_limited, hw, hfix2, hlen]
    have hsc : start_call σ From now =
        (.reject .rateLimit, [.format, .rateLimit],
          (is_rate_limited (is_rate_limited σ From now).2 From now).2) := by
      unfold start_call
      rw [if_neg (by simp [he])]
      have : (is_rate_limited σ From now) =
          ((is_rate_limited σ From now).1, (is_rate_limited σ From now).2) := rfl
      rw [this, hbool]
      simp
    rw [hsc, hid, hid]
    exact ⟨rfl, hw⟩
  · intro h0 hrest
    have hprune : pruneWindow now' (σ.rate_limit_log From) = rest := by
      rw [hw]; exact pruneWindow_cons_stale now' t0 rest h0 hrest
    have hrestlen : rest.length = 4 := by
      simpa [MAX_REQUESTS_PER_HOUR] using hlen
    have hbool : (is_rate_limited σ From now').1 = false := by
      simp [is_rate_limited, hprune, hrestlen, MAX_REQUESTS_PER_HOUR]
    have hbl : is_blocked From = false := rfl
    have hsc : start_call σ From now' =
        (.allow, [.format, .rateLimit, .blocklist],
          { log_request (is_rate_limited σ From now').2 From now' with
            issues_store := clear_old_issues now'
              (log_request (is_rate_limited σ From now').2 From now').issues_store }) := by
      unfold start_call
      rw [if_neg (by simp [he])]
      have : (is_rate_limited σ From now') =
          ((is_rate_limited σ From now').1, (is_rate_limited σ From now').2) := rfl
      rw [this, hbool]
      simp [hbl]
    rw [hsc]
    refine ⟨rfl, ?_⟩
    have h1 : (is_rate_limited σ From now').2.rate_limit_log From = rest := by
      simp [is_rate_limited, updateLog_eq, hprune]
    show (log_request (is_rate_limited σ From now').2 From now').rate_limit_log From = _
    simp only [log_request, updateLog_eq]
    rw [h1]
    have hz : (rest ++ [now']).length - MAX_REQUESTS_PER_HOUR = 0 := by
      simp [hrestlen, MAX_REQUESTS_PER_HOUR]
    rw [hz, List.drop_zero]

/-- Witness for C6 at a concrete window: five admissions at times
1000…1400, a sixth attempt at 3600 is rejected; at 4601 the oldest timestamp
has aged out and the attempt is allowed. -/
theorem rate_limit_rejects_then_readmits_witness :
    ((start_call ⟨fun _ => [1000, 1100, 1200, 1300, 1400], [], []⟩
       "+15551234567" 3600).1 = .reject .rateLimit) ∧
    ((start_call ⟨fun _ => [1000, 1100, 1200, 1300, 1400], [], []⟩
       "+15551234567" 4601).1 = .allow) := by
  have h := rate_limit_rejects_then_readmits
    ⟨fun _ => [1000, 1100, 1200, 1300, 1400], [], []⟩ "+15551234567"
    3600 4601 1000 [1100, 1200, 1300, 1400] (by decide) rfl rfl
  refine ⟨(h.1 ?_).1, (h.2 (by norm_num) ?_).1⟩
  · intro t ht
    fin_cases ht <;> norm_num
  · intro t ht
    fin_cases ht <;> norm_num

/-- `dictSet` on a head with a different key steps structurally. -/
lemma dictSet_cons_ne (p : String × Session) (t : List (String × Session))
    (k : String) (v : Session) (h : (p.1 == k) = false) :
    dictSet (p :: t) k v = p :: dictSet t k v := by
  unfold dictSet
  have h' : ¬ p.1 = k := by simpa using h
  by_cases ht : t.any (·.1 == k) <;> simp [List.any_cons, h, ht, h']

/-- `dictSet` on a head with the matching key overwrites it in place. -/
lemma dictSet_cons_eq (p : String × Session) (t : List (String × Session))
    (k : String) (v : Session) (h : (p.1 == k) = true) :
    dictSet (p :: t) k v =
      (k, v) :: t.map (fun q => if q.1 == k then (k, v) else q) := by
  unfold dictSet
  have h' : p.1 = k := eq_of_beq h
  simp [List.any_cons, h, h']

/-- After `d[k] = v`, looking up `k` yields `v`. -/
lemma dictGet_dictSet_self (r : List (String × Session)) (k : String)
    (v : Session) : dictGet (dictSet r k v) k = some v := by
  induction r with
  | nil => simp [dictSet, dictGet, List.find?]
  | cons p t ih =>
    by_cases hp : (p.1 == k) = true
    · rw [dictSet_cons_eq p t k v hp]
      simp [dictGet, List.find?]
    · rw [dictSet_cons_ne p t k v (by simpa using hp)]
      simpa [dictGet, List.find?, hp] using ih

/-- Overwriting the (unique, by `Nodup`) entry for `k` leaves every key in
place: the keys of `dictSet` in the overwrite branch are the original keys. -/
lemma keys_dictSet_of_any (r : List (String × Session)) (k : String)
    (v : Session) (h : r.any (·.1 == k) = true) :
    (dictSet r k v).map (·.1) = r.map (·.1) := by
  unfold dictSet
  rw [if_pos h, List.map_map]
  apply List.map_congr_left
  intro q _
  by_cases hq : (q.1 == k) = true
  · simp only [Function.comp_apply]
    rw [if_pos hq]
    exact (eq_of_beq hq).symm
  · simp only [Function.comp_apply]
    rw [if_neg (by simpa using hq)]

/-- Looking up a different key is unaffected by overwriting the `k` entry. -/
lemma find?_map_overwrite (t : List (String × Session)) (k k' : String)
    (v : Session) (hk : k' ≠ k) :
    ((t.map fun q => if q.1 == k then (k, v) else q).find? (·.1 == k')) =
      t.find? (·.1 == k') := by
  induction t with
  | nil => rfl
  | cons q t ih =>
    rw [List.map_cons]
    by_cases hq : (q.1 == k) = true
    · have hqk : q.1 = k := eq_of_beq hq
      have h1 : ((k, v).1 == k') = false := by simp [Ne.symm hk]
      have h2 : (q.1 == k') = false := by simp [hqk, Ne.symm hk]
      rw [if_pos hq]
      simp only [List.find?, h1, h2]
      exact ih
    · rw [if_neg (by simpa using hq)]
      by_cases hq' : (q.1 == k') = true
      · simp only [List.find?, hq']
      · have hq'' : (q.1 == k') = false := by simpa using hq'
        simp only [List.find?, hq'']
        exact ih

/-- Appending a fresh `k` entry is invisible to lookups of other keys. -/
lemma find?_append_single (r : List (String × Session)) (k k' : String)
    (v : Session) (hk : k' ≠ k) :
    ((r ++ [(k, v)]).find? (·.1 == k')) = r.find? (·.1 == k') := by
  induction r with
  | nil =>
    show List.find? _ [(k, v)] = List.find? _ []
    have h1 : ((k, v).1 == k') = false := by simp [Ne.symm hk]
    simp only [List.find?, h1]
  | cons q t ih =>
    show List.find? _ (q :: (t ++ [(k, v)])) = _
    by_cases hq : (q.1 == k') = true
    · simp only [List.find?, hq]
    · have hq' : (q.1 == k') = false := by simpa using hq
      simp only [List.find?, hq']
      exact ih

/-- **C4 counterexample.**  The claim says a second `create` for a call id
that already has a live session fails (AlreadyExists) rather than silently
replacing it.  In the code, `media_stream_handler` performs an unconditional
dict assignment: re-registering `"CA1"`, whose session already holds a
transcript entry and a stream sid, silently installs a fresh empty session —
the old session is replaced, and no failure of any kind occurs. -/
theorem media_stream_register_replaces_live_session :
    dictGet [("CA1", busySession)] "CA1" = some busySession ∧
    dictGet (media_stream_register [("CA1", busySession)] "CA1") "CA1" =
      some initialSession ∧
    initialSession ≠ busySession := by
  refine ⟨rfl, rfl, by decide⟩

/-- **C4** (amended).  `create` never fails and never leaves two sessions for
one id: registering `call_sid` unconditionally maps it to a fresh session
(silently replacing any live one), leaves every other id's session untouched,
and preserves key uniqueness, so the registry still holds at most one session
per call id. -/
theorem media_stream_register_unique_sessions (r : List (String × Session))
    (call_sid : String) (hnodup : (r.map (·.1)).Nodup) :
    dictGet (media_stream_register r call_sid) call_sid = some initialSession ∧
    (∀ k, k ≠ call_sid →
      dictGet (media_stream_register r call_sid) k = dictGet r k) ∧
    ((media_stream_register r call_sid).map (·.1)).Nodup := by
  refine ⟨dictGet_dictSet_self r call_sid initialSession, ?_, ?_⟩
  · intro k hk
    unfold media_stream_register dictSet
    by_cases hany : r.any (·.1 == call_sid) = true
    · rw [if_pos hany]
      unfold dictGet
      rw [find?_map_overwrite r call_sid k initialSession hk]
    · rw [if_neg hany]
      unfold dictGet
      rw [find?_append_single r call_sid k initialSession hk]
  · by_cases hany : r.any (·.1 == call_sid) = true
    · rw [show media_stream_register r call_sid = dictSet r call_sid initialSession from rfl,
        keys_dictSet_of_any r call_sid initialSession hany]
      exact hnodup
    · unfold media_stream_register dictSet
      rw [if_neg hany]
      rw [List.map_append]
      have hnotin : call_sid ∉ r.map (·.1) := by
        intro hmem
        rcases List.mem_map.mp hmem with ⟨p, hp, hpk⟩
        have : (p.1 == call_sid) = true := by simp [hpk]
        exact hany (List.any_of_mem hp this)
      simp [List.nodup_append, hnodup, hnotin]

/-- Witness for C4 (amended) at a concrete registry. -/
theorem media_stream_register_unique_sessions_witness :
    (([("CA1", busySession)].map (·.1)).Nodup) ∧
    dictGet (media_stream_register [("CA1", busySession)] "CA2") "CA2" =
      some initialSession ∧
    dictGet (media_stream_register [("CA1", busySession)] "CA2") "CA1" =
      dictGet [("CA1", busySession)] "CA1" := by
  have hnodup : (([("CA1", busySession)] : List (String × Session)).map (·.1)).Nodup := by
    simp
  have h := media_stream_register_unique_sessions [("CA1", busySession)] "CA2" hnodup
  exact ⟨hnodup, h.1, h.2.1 "CA1" (by decide)⟩

/-- Upsampling loop at reduced rates 1:3 in its steady state `d = -1`: every
further input sample yields exactly three output samples. -/
lemma ratecvGo_1_3_len (l : List Int) : ∀ (prev cur : Int),
    ((ratecvGo 1 3 l prev cur (-1)).1).length = 3 * l.length := by
  induction l with
  | nil => intro prev cur; rfl
  | cons s rest ih =>
    intro prev cur
    rw [ratecvGo]
    simp only [show (-1 : Int) + 3 = 2 from rfl]
    rw [if_pos (by norm_num)]
    rw [show ((2 : Int) / 1).toNat + 1 = 3 from rfl]
    rw [show (2 : Int) - 1 * ((3 : Nat) : Int) = -1 by norm_num]
    rw [List.length_append, List.length_map, List.length_range, ih,
      List.length_cons]
    ring

/-- Downsampling loop at reduced rates 3:1: from a state `d = -j`
(`j ∈ {1, 2, 3}`, the only reachable states), `n` input samples yield
`(n + 3 - j) / 3` output samples. -/
lemma ratecvGo_3_1_len (l : List Int) : ∀ (prev cur : Int) (j : Nat),
    j = 1 ∨ j = 2 ∨ j = 3 →
    ((ratecvGo 3 1 l prev cur (-(j : Int))).1).length = (l.length + 3 - j) / 3 := by
  induction l with
  | nil =>
    intro prev cur j hj
    rcases hj with rfl | rfl | rfl <;> rfl
  | cons s rest ih =>
    intro prev cur j hj
    rcases hj with rfl | rfl | rfl
    · rw [ratecvGo]
      simp only [show -((1 : Nat) : Int) + 1 = 0 from rfl]
      rw [if_pos (by norm_num)]
      rw [show ((0 : Int) / 3).toNat + 1 = 1 from rfl]
      rw [show (0 : Int) - 3 * ((1 : Nat) : Int) = -((3 : Nat) : Int) by norm_num]
      rw [List.length_append, List.length_map, List.length_range,
        ih cur s 3 (by norm_num), List.length_cons]
      omega
    · rw [ratecvGo]
      rw [if_neg (by norm_num)]
      rw [show -((2 : Nat) : Int) + 1 = -((1 : Nat) : Int) by norm_num]
      rw [ih cur s 1 (by norm_num), List.length_cons]
      omega
    · rw [ratecvGo]
      rw [if_neg (by norm_num)]
      rw [show -((3 : Nat) : Int) + 1 = -((2 : Nat) : Int) by norm_num]
      rw [ih cur s 2 (by norm_num), List.length_cons]
      omega

/-- `ratecv` from a fresh state at 8000 → 24000 reduces to the 1:3 loop
started at `d = -3`. -/
lemma ratecv_8_24_unfold (samples : List Int) :
    ratecv samples 8000 24000 none =
      ((ratecvGo 1 3 (samples.map (· * 65536)) 0 0 (-3)).1.map
        (fun v => Int.fdiv v 65536),
       (ratecvGo 1 3 (samples.map (· * 65536)) 0 0 (-3)).2) := rfl

/-- `ratecv` from a fresh state at 24000 → 8000 reduces to the 3:1 loop
started at `d = -1`. -/
lemma ratecv_24_8_unfold (samples : List Int) :
    ratecv samples 24000 8000 none =
      ((ratecvGo 3 1 (samples.map (· * 65536)) 0 0 (-1)).1.map
        (fun v => Int.fdiv v 65536),
       (ratecvGo 3 1 (samples.map (· * 65536)) 0 0 (-1)).2) := rfl

/-- A nonempty mu-law frame of `n` samples upsamples to `3n - 2` wideband
samples: the fresh-state resampler emits one sample for the first input and
three per input thereafter. -/
lemma mulaw_to_pcm16_len (frame : List Nat) (h : frame ≠ []) :
    (mulaw_to_pcm16 frame).length = 3 * frame.length - 2 := by
  unfold mulaw_to_pcm16
  rw [ratecv_8_24_unfold]
  cases frame with
  | nil => exact absurd rfl h
  | cons a t =>
    simp only [List.map_cons]
    rw [ratecvGo]
    simp only [show (-3 : Int) + 3 = 0 from rfl]
    rw [if_pos (by norm_num)]
    rw [show ((0 : Int) / 1).toNat + 1 = 1 from rfl]
    rw [show (0 : Int) - 1 * ((1 : Nat) : Int) = -1 by norm_num]
    rw [List.length_map, List.length_append, List.length_map, List.length_range,
      ratecvGo_1_3_len]
    simp only [List.length_map, List.length_cons]
    omega

/-- A model-side fragment of `m` samples downsamples to `(m + 2) / 3`
narrowband samples. -/
lemma pcm16_to_mulaw_len (pcm : List Int) :
    (pcm16_to_mulaw pcm).length = (pcm.length + 2) / 3 := by
  unfold pcm16_to_mulaw
  rw [ratecv_24_8_unfold]
  have h := ratecvGo_3_1_len (pcm.map (· * 65536)) 0 0 1 (by norm_num)
  simp only [show -((1 : Nat) : Int) = -1 by norm_num] at h
  rw [List.length_map, List.length_map, h, List.length_map]
  omega

/-- **C7 counterexample.**  The claim says a 240-sample carrier frame
converts to 720 samples at 24 kHz.  It converts to 718: the interpolating
resampler, started from a fresh state, emits `3·240 − 2` samples. -/
theorem mulaw_to_pcm16_240_samples_not_720 :
    (mulaw_to_pcm16 (List.replicate 240 255)).length = 718 ∧
    (mulaw_to_pcm16 (List.replicate 240 255)).length ≠ 720 := by
  have hlen : (List.replicate 240 (255 : Nat)).length = 240 :=
    List.length_replicate _ _
  have hne : List.replicate 240 (255 : Nat) ≠ [] := by
    intro hcon
    rw [hcon] at hlen
    exact absurd hlen (by decide)
  have h : (mulaw_to_pcm16 (List.replicate 240 255)).length = 718 := by
    rw [mulaw_to_pcm16_len (List.replicate 240 255) hne, hlen]
  exact ⟨h, by rw [h]; decide⟩

/-- **C7** (amended).  For every nonempty carrier frame the round trip
preserves the frame's duration: `n` narrowband samples upsample to `3n − 2`
wideband samples (718 for a 240-sample frame, not 720) and downsampling that
result restores exactly `n` narrowband samples. -/
theorem audio_roundtrip_preserves_duration (frame : List Nat)
    (h : frame ≠ []) :
    (mulaw_to_pcm16 frame).length = 3 * frame.length - 2 ∧
    (pcm16_to_mulaw (mulaw_to_pcm16 frame)).length = frame.length := by
  have h1 := mulaw_to_pcm16_len frame h
  refine ⟨h1, ?_⟩
  rw [pcm16_to_mulaw_len, h1]
  have : 0 < frame.length := List.length_pos.mpr h
  omega

/-- Witness for C7 (amended) at a 240-sample frame of silence. -/
theorem audio_roundtrip_preserves_duration_witness :
    (List.replicate 240 (0 : Nat)) ≠ [] ∧
    (pcm16_to_mulaw (mulaw_to_pcm16 (List.replicate 240 (0 : Nat)))).length = 240 := by
  have hlen : (List.replicate 240 (0 : Nat)).length = 240 :=
    List.length_replicate _ _
  have hne : (List.replicate 240 (0 : Nat)) ≠ [] := by
    intro hcon
    rw [hcon] at hlen
    exact absurd hlen (by decide)
  have h := audio_roundtrip_preserves_duration (List.replicate 240 0) hne
  refine ⟨hne, ?_⟩
  rw [h.2, hlen]

/-- **C5** (code_bug evidence).  Both converters pass `state = None` to
`audioop.ratecv` on every frame and discard the returned state, so the
resampling filter is re-initialized for each frame instead of persisting.
Concretely, in the carrier→model direction: after converting the one-sample
frame `[0x00]`, converting the next frame `[0xFF]` yields `[0]` (one sample,
fresh filter), whereas continuing from the filter state left by the first
frame would yield the three samples `[-21416, -10708, 0]`.  In the
model→carrier direction: after converting `[0]`, converting the next frame
`[0]` yields `[255]` (one byte), whereas the persistent filter would still be
accumulating and emit nothing. -/
theorem transcoder_resets_filter_state_per_frame :
    mulaw_to_pcm16 [255] = [0] ∧
    (mulawToPcm16From (ratecv ([0].map st_ulaw2linear16) 8000 24000 none).2
      [255]).1 = [-21416, -10708, 0] ∧
    mulaw_to_pcm16 [255] ≠
      (mulawToPcm16From (ratecv ([0].map st_ulaw2linear16) 8000 24000 none).2
        [255]).1 ∧
    pcm16_to_mulaw [0] = [255] ∧
    (pcm16ToMulawFrom (ratecv [0] 24000 8000 none).2 [0]).1 = [] ∧
    pcm16_to_mulaw [0] ≠
      (pcm16ToMulawFrom (ratecv [0] 24000 8000 none).2 [0]).1 := by
  refine ⟨rfl, rfl, by decide, rfl, rfl, by decide⟩

/-- A run of text deltas only appends to the accumulator (fold form). -/
lemma processEvents_textDeltas (ds : List String) : ∀ (s : PumpState),
    processEvents s (ds.map OAEvent.textDelta) =
      { s with buffer := ds.foldl (· ++ ·) s.buffer } := by
  induction ds with
  | nil => intro s; rfl
  | cons d rest ih =>
    intro s
    show processEvents (stepEvent s (.textDelta d)) (rest.map .textDelta) = _
    rw [ih]
    rfl

/-- **C8**.  During one call (the session registered for the whole relay,
accumulator initially empty): a run of text deltas appends no transcript
entry and leaves their concatenation in the partial-utterance buffer; the
`response.text.done` marker then commits exactly one `bot` entry carrying
that concatenation and clears the buffer; a caller
transcription-completed event with (nonempty, arrives-whole) text appends one
`caller` entry directly, without touching the buffer; and every event appends
at most one entry at the tail, so the transcript preserves arrival order. -/
theorem transcript_accumulation_and_order (ds : List String) (t : String)
    (s : PumpState) (hreg : s.inRegistry = true) (hbuf : s.buffer = "")
    (hds : String.join ds ≠ "") (ht : t ≠ "") :
    (processEvents s (ds.map OAEvent.textDelta)).transcript = s.transcript ∧
    (processEvents s (ds.map OAEvent.textDelta)).buffer = String.join ds ∧
    processEvents s (ds.map OAEvent.textDelta ++ [OAEvent.textDone]) =
      { s with transcript := s.transcript ++ [⟨"bot", String.join ds⟩],
               buffer := "" } ∧
    stepEvent s (.callerTranscriptCompleted t) =
      { s with transcript := s.transcript ++ [⟨"caller", t⟩] } ∧
    (∀ (e : OAEvent) (s' : PumpState),
      (stepEvent s' e).transcript = s'.transcript ∨
      ∃ en, (stepEvent s' e).transcript = s'.transcript ++ [en]) := by
  have hjoin : String.join ds = ds.foldl (· ++ ·) "" := rfl
  have hfold := processEvents_textDeltas ds s
  have hbuf2 : (processEvents s (ds.map OAEvent.textDelta)).buffer = String.join ds := by
    rw [hfold, hjoin, hbuf]
  have hfb : ds.foldl (· ++ ·) s.buffer = String.join ds := by rw [hbuf, hjoin]
  refine ⟨by rw [hfold], hbuf2, ?_, ?_, ?_⟩
  · show processEvents s (ds.map OAEvent.textDelta ++ [OAEvent.textDone]) = _
    unfold processEvents
    rw [List.foldl_append]
    show stepEvent (processEvents s (ds.map OAEvent.textDelta)) OAEvent.textDone = _
    rw [hfold]
    simp only [stepEvent]
    rw [if_pos (by rw [hfb]; simp [hds, hreg])]
    rw [hfb]
  · show stepEvent s (.callerTranscriptCompleted t) = _
    simp only [stepEvent]
    rw [if_pos (by simp [ht, hreg])]
  · intro e s'
    cases e with
    | textDone =>
      by_cases hc : ((s'.buffer != "") && s'.inRegistry) = true
      · right
        refine ⟨⟨"bot", s'.buffer⟩, ?_⟩
        show (stepEvent s' OAEvent.textDone).transcript = _
        simp only [stepEvent]
        rw [if_pos hc]
      · left
        show (stepEvent s' OAEvent.textDone).transcript = _
        simp only [stepEvent]
        rw [if_neg hc]
    | callerTranscriptCompleted u =>
      by_cases hc : ((u != "") && s'.inRegistry) = true
      · right
        refine ⟨⟨"caller", u⟩, ?_⟩
        show (stepEvent s' (.callerTranscriptCompleted u)).transcript = _
        simp only [stepEvent]
        rw [if_pos hc]
      · left
        show (stepEvent s' (.callerTranscriptCompleted u)).transcript = _
        simp only [stepEvent]
        rw [if_neg hc]
    | textDelta d => exact Or.inl rfl
    | audioDelta p => exact Or.inl rfl
    | audioDone => exact Or.inl rfl
    | functionCallDone n => exact Or.inl rfl
    | errorEvent => exact Or.inl rfl
    | otherEvent ty => exact Or.inl rfl

/-- Witness for C8: two deltas followed by the done marker commit one `bot`
entry with the concatenated text, and a caller event appends directly. -/
theorem transcript_accumulation_and_order_witness :
    processEvents ⟨true, "", []⟩
        [OAEvent.textDelta "I can help ", OAEvent.textDelta "with that.",
         OAEvent.textDone] =
      ⟨true, "", [⟨"bot", "I can help with that."⟩]⟩ ∧
    stepEvent ⟨true, "", []⟩ (.callerTranscriptCompleted "billing issue") =
      ⟨true, "", [⟨"caller", "billing issue"⟩]⟩ := by
  have h := transcript_accumulation_and_order
    ["I can help ", "with that."] "billing issue" ⟨true, "", []⟩
    rfl rfl (by decide) (by decide)
  exact ⟨h.2.2.1, h.2.2.2.1⟩

/-- Summarizer request raised (timeout/error): `summary_prompt` returns
`"fail"`, which contains no brace block, so the default dict is returned. -/
lemma generate_summary_of_fail (llm : String → Option String) (t : String)
    (h : llm (promptFor t) = none) :
    generate_summary llm t = .ok summaryDefault := by
  unfold generate_summary summary_prompt
  simp only []
  rw [show summaryPrompt (pyTruncate MAX_TRANSCRIPT_CHARS t) = promptFor t from rfl, h]
  rfl

/-- Summarizer output with no `\x7b…\x7d` block: default dict. -/
lemma generate_summary_of_no_brace (llm : String → Option String) (t c : String)
    (h : llm (promptFor t) = some c) (hb : braceBlock (pyStrip c) = none) :
    generate_summary llm t = .ok summaryDefault := by
  unfold generate_summary summary_prompt
  simp only []
  rw [show summaryPrompt (pyTruncate MAX_TRANSCRIPT_CHARS t) = promptFor t from rfl,
    h, hb]

/-- Summarizer output whose brace block parses to JSON that is not a dict
with exactly the required keys: default dict. -/
lemma generate_summary_of_bad_keys (llm : String → Option String)
    (t c g : String) (j : Json)
    (h : llm (promptFor t) = some c) (hb : braceBlock (pyStrip c) = some g)
    (hj : jsonLoads g = some j)
    (hbad : ∀ fields, j = .obj fields → keysMatchRequired fields = false) :
    generate_summary llm t = .ok summaryDefault := by
  unfold generate_summary summary_prompt
  simp only []
  rw [show summaryPrompt (pyTruncate MAX_TRANSCRIPT_CHARS t) = promptFor t from rfl,
    h, hb]
  simp only []
  rw [hj]
  cases j with
  | obj fields =>
    simp only []
    rw [hbad fields rfl]
    rfl
  | null => rfl
  | bool b => rfl
  | num n => rfl
  | str s => rfl
  | arr es => rfl

/-- Summarizer output whose brace block fails to parse as JSON:
`json.loads` raises outside any `try`, so `generate_summary` raises. -/
lemma generate_summary_of_parse_error (llm : String → Option String)
    (t c g : String)
    (h : llm (promptFor t) = some c) (hb : braceBlock (pyStrip c) = some g)
    (hj : jsonLoads g = none) :
    generate_summary llm t = .error () := by
  unfold generate_summary summary_prompt
  simp only []
  rw [show summaryPrompt (pyTruncate MAX_TRANSCRIPT_CHARS t) = promptFor t from rfl,
    h, hb]
  simp only []
  rw [hj]

/-- When `generate_summary` returns the default dict, `/end_call` appends
exactly the fallback record. -/
lemma get_issue_type_of_default (llm : String → Option String)
    (CallSid From : String)
    (cstate : String → Option (List TranscriptEntry)) (issues : List Issue)
    (now : Int) (raw : List TranscriptEntry)
    (hstate : cstate CallSid = some raw) (hraw : raw ≠ [])
    (hsum : generate_summary llm (flattenTranscript raw) = .ok summaryDefault) :
    get_issue_type llm CallSid From cstate issues now =
      .ok (.saved, issues ++ [fallbackIssue From raw now]) := by
  have hne : raw.isEmpty = false := by
    cases raw with
    | nil => exact absurd rfl hraw
    | cons a l => rfl
  unfold get_issue_type
  rw [hstate]
  simp only []
  rw [if_neg (by rw [hne]; exact Bool.false_ne_true)]
  rw [hsum]
  rfl

/-- When `generate_summary` raises, `/end_call` propagates the exception and
appends nothing. -/
lemma get_issue_type_of_error (llm : String → Option String)
    (CallSid From : String)
    (cstate : String → Option (List TranscriptEntry)) (issues : List Issue)
    (now : Int) (raw : List TranscriptEntry)
    (hstate : cstate CallSid = some raw) (hraw : raw ≠ [])
    (hsum : generate_summary llm (flattenTranscript raw) = .error ()) :
    get_issue_type llm CallSid From cstate issues now = .error () := by
  have hne : raw.isEmpty = false := by
    cases raw with
    | nil => exact absurd rfl hraw
    | cons a l => rfl
  unfold get_issue_type
  rw [hstate]
  simp only []
  rw [if_neg (by rw [hne]; exact Bool.false_ne_true)]
  rw [hsum]

/-- Every `.ok` result of `generate_summary` is the default dict or a parsed
dict whose keys are exactly the required set. -/
lemma generate_summary_ok_form (llm : String → Option String) (t : String)
    (s : List (String × Json)) (h : generate_summary llm t = .ok s) :
    s = summaryDefault ∨ keysMatchRequired s = true := by
  unfold generate_summary at h
  simp only [] at h
  cases hb : braceBlock (summary_prompt llm
      (summaryPrompt (pyTruncate MAX_TRANSCRIPT_CHARS t))) with
  | none =>
    rw [hb] at h
    injection h with h'
    exact Or.inl h'.symm
  | some g =>
    rw [hb] at h
    simp only [] at h
    cases hj : jsonLoads g with
    | none =>
      rw [hj] at h
      exact Except.noConfusion h
    | some j =>
      rw [hj] at h
      cases j with
      | obj fields =>
        simp only [] at h
        by_cases hk : keysMatchRequired fields = true
        · rw [if_pos hk] at h
          injection h with h'
          exact Or.inr (h' ▸ hk)
        · rw [if_neg hk] at h
          injection h with h'
          exact Or.inl h'.symm
      | null => injection h with h'; exact Or.inl h'.symm
      | bool b => injection h with h'; exact Or.inl h'.symm
      | num n => injection h with h'; exact Or.inl h'.symm
      | str st => injection h with h'; exact Or.inl h'.symm
      | arr es => injection h with h'; exact Or.inl h'.symm

/-- A dict passing the required-keys check yields a value for each required
key. -/
lemma objGet_of_keysMatch (fields : List (String × Json)) (k : String)
    (hk : keysMatchRequired fields = true) (hmem : k ∈ requiredKeys) :
    ∃ v, objGet fields k = some v := by
  unfold keysMatchRequired at hk
  simp only [] at hk
  rw [Bool.and_eq_true] at hk
  have h1 := hk.1
  rw [List.all_eq_true] at h1
  have hc := h1 k hmem
  have hmem2 : k ∈ fields.map (·.1) := by
    have := List.elem_iff.mp hc
    simpa using this
  rcases List.mem_map.mp hmem2 with ⟨p, hp, hpk⟩
  have hfind : ((fields.reverse.find? (·.1 == k)).isSome) = true := by
    rw [List.find?_isSome]
    exact ⟨p, List.mem_reverse.mpr hp, by simp [hpk]⟩
  rcases Option.isSome_iff_exists.mp hfind with ⟨q, hq⟩
  exact ⟨q.2, by unfold objGet; rw [hq]; rfl⟩

/-- `/end_call` on a successful summary whose three indexed keys resolve:
the record stores the summary fields and the untruncated transcript. -/
lemma get_issue_type_of_ok (llm : String → Option String)
    (CallSid From : String)
    (cstate : String → Option (List TranscriptEntry)) (issues : List Issue)
    (now : Int) (raw : List TranscriptEntry) (s : List (String × Json))
    (hstate : cstate CallSid = some raw) (hraw : raw ≠ [])
    (hsum : generate_summary llm (flattenTranscript raw) = .ok s)
    (vt vd vp : Json)
    (hvt : objGet s "title" = some vt)
    (hvd : objGet s "description" = some vd)
    (hvp : objGet s "priority" = some vp) :
    get_issue_type llm CallSid From cstate issues now =
      .ok (.saved, issues ++
        [{ name := objGetD s "name" (.str From),
           company := objGetD s "company" (.str "no company information"),
           number := From,
           system_info := objGetD s "system_info" (.str "no device information"),
           title := vt, description := vd, priority := vp,
           raw_transcription := raw.map (·.message),
           visited := false, timestamp := now }]) := by
  have hne : raw.isEmpty = false := by
    cases raw with
    | nil => exact absurd rfl hraw
    | cons a l => rfl
  unfold get_issue_type
  rw [hstate]
  simp only []
  rw [if_neg (by rw [hne]; exact Bool.false_ne_true)]
  rw [hsum]
  simp only []
  rw [hvt, hvd, hvp]

/-- **C2 counterexample.**  On a summarizer timeout (the request raises), the
enqueued fallback record's title is `"Uncategorised Call"` and its priority is
`"Uncategorised"` — not the claimed `"Uncategorized Call"` / `"unknown"`
(those constants belong to the retired `src/main.py` variant). -/
theorem end_call_fallback_constants_differ :
    get_issue_type (fun _ => none) "CA1" "+15551234567" cstateC2 [] 0 =
      .ok (.saved, [fallbackIssue "+15551234567" [⟨"caller", "billing issue"⟩] 0]) ∧
    (fallbackIssue "+15551234567" [⟨"caller", "billing issue"⟩] 0).title ≠
      Json.str "Uncategorized Call" ∧
    (fallbackIssue "+15551234567" [⟨"caller", "billing issue"⟩] 0).priority ≠
      Json.str "unknown" ∧
    (fallbackIssue "+15551234567" [⟨"caller", "billing issue"⟩] 0).title =
      Json.str "Uncategorised Call" := by
  refine ⟨?_, ?_, ?_, rfl⟩
  · have h := get_issue_type_of_default (fun _ => none) "CA1" "+15551234567"
      cstateC2 [] 0 [⟨"caller", "billing issue"⟩] rfl
      (List.cons_ne_nil _ _)
      (generate_summary_of_fail (fun _ => none) _ rfl)
    simpa using h
  · intro h
    injection h with h'
    exact absurd h' (by decide)
  · intro h
    injection h with h'
    exact absurd h' (by decide)

/-- **C2** (amended).  For a finalized call with a nonempty transcript:
* if the summarizer request raises (timeout/error), or returns content with
  no `\x7b…\x7d` block, or a block that parses to JSON that is not a dict
  with exactly the required keys, `/end_call` enqueues the fallback record —
  title `"Uncategorised Call"`, description `"Failed AI Summarisation"`,
  priority `"Uncategorised"`, raw transcript preserved verbatim;
* but if the block exists and fails JSON parsing, `json.loads` raises outside
  any `try`, the handler errors, and no record is enqueued: that call *is*
  lost. -/
theorem end_call_fallback_or_loss (llm : String → Option String)
    (CallSid From : String)
    (cstate : String → Option (List TranscriptEntry)) (issues : List Issue)
    (now : Int) (raw : List TranscriptEntry)
    (hstate : cstate CallSid = some raw) (hraw : raw ≠ []) :
    (llm (promptFor (flattenTranscript raw)) = none →
      get_issue_type llm CallSid From cstate issues now =
        .ok (.saved, issues ++ [fallbackIssue From raw now])) ∧
    (∀ c, llm (promptFor (flattenTranscript raw)) = some c →
      braceBlock (pyStrip c) = none →
      get_issue_type llm CallSid From cstate issues now =
        .ok (.saved, issues ++ [fallbackIssue From raw now])) ∧
    (∀ c g j, llm (promptFor (flattenTranscript raw)) = some c →
      braceBlock (pyStrip c) = some g → jsonLoads g = some j →
      (∀ fields, j = .obj fields → keysMatchRequired fields = false) →
      get_issue_type llm CallSid From cstate issues now =
        .ok (.saved, issues ++ [fallbackIssue From raw now])) ∧
    (∀ c g, llm (promptFor (flattenTranscript raw)) = some c →
      braceBlock (pyStrip c) = some g → jsonLoads g = none →
      get_issue_type llm CallSid From cstate issues now = .error ()) := by
  refine ⟨fun h => ?_, fun c hc hb => ?_, fun c g j hc hb hj hbad => ?_,
    fun c g hc hb hj => ?_⟩
  · exact get_issue_type_of_default llm CallSid From cstate issues now raw
      hstate hraw (generate_summary_of_fail llm _ h)
  · exact get_issue_type_of_default llm CallSid From cstate issues now raw
      hstate hraw (generate_summary_of_no_brace llm _ c hc hb)
  · exact get_issue_type_of_default llm CallSid From cstate issues now raw
      hstate hraw (generate_summary_of_bad_keys llm _ c g j hc hb hj hbad)
  · exact get_issue_type_of_error llm CallSid From cstate issues now raw
      hstate hraw (generate_summary_of_parse_error llm _ c g hc hb hj)

/-- Witness for C2 (amended): a summarizer reply whose brace block is not
valid JSON makes `/end_call` raise, so the record is lost. -/
theorem end_call_fallback_or_loss_witness :
    get_issue_type (fun _ => some "\x7bbroken\x7d") "CA1" "+15551234567"
      cstateC2 [] 0 = .error () := by
  have h := end_call_fallback_or_loss (fun _ => some "\x7bbroken\x7d") "CA1"
    "+15551234567" cstateC2 [] 0 [⟨"caller", "billing issue"⟩] rfl
    (List.cons_ne_nil _ _)
  exact h.2.2.2 "\x7bbroken\x7d" "\x7bbroken\x7d" rfl rfl rfl

/-- Truncating by code points is idempotent. -/
lemma pyTruncate_idem (n : Nat) (s : String) :
    pyTruncate n (pyTruncate n s) = pyTruncate n s := by
  unfold pyTruncate
  simp [List.take_take]

/-- Equal truncations give syntactically identical summarizer runs. -/
lemma generate_summary_congr (llm : String → Option String) (t1 t2 : String)
    (hpre : pyTruncate MAX_TRANSCRIPT_CHARS t1 = pyTruncate MAX_TRANSCRIPT_CHARS t2) :
    generate_summary llm t1 = generate_summary llm t2 := by
  unfold generate_summary
  simp only []
  rw [hpre]

/-- **C10**.  `generate_summary` truncates the flattened transcript to its
first `MAX_TRANSCRIPT_CHARS = 1500` code points before building the prompt:
summarizing a transcript equals summarizing its truncation, and any two
transcripts agreeing on that prefix produce identical summaries under any
summarizer behaviour; meanwhile the record `/end_call` enqueues stores the
call's messages untruncated. -/
theorem summary_truncates_but_stores_full_transcript
    (llm : String → Option String) (t1 t2 : String)
    (hpre : pyTruncate MAX_TRANSCRIPT_CHARS t1 = pyTruncate MAX_TRANSCRIPT_CHARS t2)
    (CallSid From : String)
    (cstate : String → Option (List TranscriptEntry)) (issues : List Issue)
    (now : Int) (raw : List TranscriptEntry) (s : List (String × Json))
    (hstate : cstate CallSid = some raw) (hraw : raw ≠ [])
    (hsum : generate_summary llm (flattenTranscript raw) = .ok s) :
    generate_summary llm t1 = generate_summary llm (pyTruncate MAX_TRANSCRIPT_CHARS t1) ∧
    generate_summary llm t1 = generate_summary llm t2 ∧
    ∃ rec, get_issue_type llm CallSid From cstate issues now =
      .ok (.saved, issues ++ [rec]) ∧
      rec.raw_transcription = raw.map (·.message) := by
  refine ⟨generate_summary_congr llm _ _ (pyTruncate_idem _ _).symm,
    generate_summary_congr llm _ _ hpre, ?_⟩
  rcases generate_summary_ok_form llm _ s hsum with rfl | hk
  · exact ⟨fallbackIssue From raw now,
      get_issue_type_of_default llm CallSid From cstate issues now raw
        hstate hraw hsum, rfl⟩
  · obtain ⟨vt, hvt⟩ := objGet_of_keysMatch s "title" hk (by decide)
    obtain ⟨vd, hvd⟩ := objGet_of_keysMatch s "description" hk (by decide)
    obtain ⟨vp, hvp⟩ := objGet_of_keysMatch s "priority" hk (by decide)
    exact ⟨_, get_issue_type_of_ok llm CallSid From cstate issues now raw s
      hstate hraw hsum vt vd vp hvt hvd hvp, rfl⟩

/-- Witness for C10 at concrete inputs (summarizer times out, single-message
transcript). -/
theorem summary_truncates_but_stores_full_transcript_witness :
    generate_summary (fun _ => none) "hello" =
      generate_summary (fun _ => none) (pyTruncate MAX_TRANSCRIPT_CHARS "hello") ∧
    ∃ rec, get_issue_type (fun _ => none) "CA1" "+15551234567" cstateC2 [] 0 =
      .ok (.saved, [] ++ [rec]) ∧
      rec.raw_transcription = [TranscriptEntry.mk "caller" "billing issue"].map (·.message) := by
  have h := summary_truncates_but_stores_full_transcript (fun _ => none)
    "hello" "hello" rfl "CA1" "+15551234567" cstateC2 [] 0
    [⟨"caller", "billing issue"⟩] summaryDefault rfl (List.cons_ne_nil _ _)
    (generate_summary_of_fail (fun _ => none) _ rfl)
  exact ⟨h.1, h.2.2⟩

end BasicCaller
